import Mathlib

/-!
Verification of the SCALE event-decoding core of the squid-guess-passet-hub
indexer.  The TypeScript sources are shallowly embedded: byte buffers become
`List Nat` (every element < 256, the `Uint8Array` invariant), JavaScript
objects become association lists in insertion order, thrown exceptions become
`Except String`, and `null` becomes `Option.none`.  JavaScript quirks that the
code relies on are modelled explicitly: out-of-range indexing inside bitwise
chains coerces `undefined` to 0, `BigInt(undefined)` throws, `Map.set` and
object assignment overwrite existing keys in place, and falsy tests (`!e.from`)
treat 0 like `undefined`.
-/

namespace SquidGuess

/-- Decoded JavaScript values produced by the decoders: `num` is a JS number,
`big` a JS bigint, `bytes` a `Uint8Array`, `utf8` a string given by the bytes
`TextDecoder` would decode, `obj` an object as an ordered association list. -/
inductive Val where
  | num (n : Int)
  | big (n : Int)
  | str (s : String)
  | boolv (b : Bool)
  | bytes (bs : List Nat)
  | utf8 (bs : List Nat)
  | list (xs : List Val)
  | obj (fs : List (String × Val))
  | undef

/-- Association-list lookup, modelling `Map.get` / object property access
(first binding wins; keys are kept unique by `mapSet`). -/
def alookup {α β : Type} [DecidableEq α] (k : α) : List (α × β) → Option β
  | [] => none
  | (k', v) :: rest => if k' = k then some v else alookup k rest

/-- Models `Map.set` / `obj[k] = v`: an existing key keeps its position and
gets the new value, a new key is appended. -/
def mapSet {α β : Type} [DecidableEq α] (m : List (α × β)) (k : α) (v : β) :
    List (α × β) :=
  match alookup k m with
  | some _ => m.map (fun p => if p.1 = k then (k, v) else p)
  | none => m ++ [(k, v)]

/-- ASCII lowercasing of one character (`String.prototype.toLowerCase` on the
hex/address strings used here). -/
def lowerChar (c : Char) : Char :=
  if 'A' ≤ c ∧ c ≤ 'Z' then Char.ofNat (c.toNat + 32) else c

def asciiLowerL (cs : List Char) : List Char := cs.map lowerChar

def asciiLower (s : String) : String := ⟨asciiLowerL s.toList⟩

/-- Models `hex.startsWith('0x') ? hex.slice(2) : hex` at the character level. -/
def strip0xL (cs : List Char) : List Char :=
  match cs with
  | c1 :: c2 :: rest => if c1 = '0' ∧ c2 = 'x' then rest else cs
  | _ => cs

def strip0x (s : String) : String := ⟨strip0xL s.toList⟩

/-- Signature normalization as the spec words it: strip `0x`, lowercase. -/
def normalizeSig (s : String) : String := asciiLower (strip0x s)

/-- Value of a single hex digit, case-insensitive (`parseInt(_, 16)` digits). -/
def hexDigitVal (c : Char) : Option Nat :=
  if '0' ≤ c ∧ c ≤ '9' then some (c.toNat - 48)
  else if 'a' ≤ c ∧ c ≤ 'f' then some (c.toNat - 87)
  else if 'A' ≤ c ∧ c ≤ 'F' then some (c.toNat - 55)
  else none

/-- Models `parseInt(two-char slice, 16)` followed by storage into a
`Uint8Array` element: `parseInt` takes the longest valid prefix and the
array store turns `NaN` into 0. -/
def parseHexPair (c1 c2 : Char) : Nat :=
  match hexDigitVal c1 with
  | none => 0
  | some v1 =>
    match hexDigitVal c2 with
    | none => v1
    | some v2 => 16 * v1 + v2

/-- The loop body of `hexToBytes` from src/src/types/ink/support.ts: consume
the cleaned hex string two characters at a time. -/
def hexPairsToBytes : List Char → List Nat
  | c1 :: c2 :: rest => parseHexPair c1 c2 :: hexPairsToBytes rest
  | _ => []

/-- `hexToBytes` from src/src/types/ink/support.ts (and its private copy in
src/src/decoders/subsquid-inkv6-decoder.ts).  For an odd-length cleaned
string, `new Uint8Array(clean.length / 2)` truncates the fractional length
(`ToIndex`), and the final lone-character iteration writes one past the end
of the array, which a typed array silently ignores — so the result is
exactly the consecutive full pairs. -/
def hexToBytes (hex : String) : List Nat :=
  hexPairsToBytes (strip0xL hex.toList)

/-- One hex digit as a lowercase character, as `Number.prototype.toString(16)`
produces. -/
def hexDigitChar (d : Nat) : Char :=
  if d < 10 then Char.ofNat (48 + d) else Char.ofNat (87 + d)

/-- Digit loop of `n.toString(16)`; `fuel` bounds the number of digits and
`n + 1` always suffices since `n / 16 < n` for `n ≥ 16`. -/
def toHexDigitsGo : Nat → Nat → List Char
  | 0, _ => []
  | fuel + 1, n =>
    if n < 16 then [hexDigitChar n]
    else toHexDigitsGo fuel (n / 16) ++ [hexDigitChar (n % 16)]

/-- `n.toString(16)` for a natural number. -/
def toHexDigits (n : Nat) : List Char := toHexDigitsGo (n + 1) n

/-- `padStart(2, '0')`. -/
def padStart2 (cs : List Char) : List Char :=
  if cs.length < 2 then List.replicate (2 - cs.length) '0' ++ cs else cs

/-- `bytes[i].toString(16).padStart(2, '0')` from `bytesToHex`. -/
def byteHex (b : Nat) : List Char := padStart2 (toHexDigits b)

/-- `bytesToHex` from src/src/types/ink/support.ts: `'0x'` followed by each
byte as two lowercase hex digits. -/
def bytesToHex (bs : List Nat) : String :=
  ⟨'0' :: 'x' :: (bs.map byteHex).flatten⟩

/-- A character the way `bytesToHex` may emit it after the prefix. -/
def isLowerHexDigit (c : Char) : Prop := ('0' ≤ c ∧ c ≤ '9') ∨ ('a' ≤ c ∧ c ≤ 'f')

instance (c : Char) : Decidable (isLowerHexDigit c) := by
  unfold isLowerHexDigit; infer_instance

/-- Buffer indexing `buf[i]` in a bitwise/arithmetic context: out-of-range
yields `undefined`, which the `|` chains coerce to 0. -/
def byteAt (buf : List Nat) (i : Nat) : Nat := buf.getD i 0

/-- Little-endian value of a byte list (specification-side helper used to
state what the readers compute). -/
def leVal : List Nat → Nat
  | [] => 0
  | b :: rest => b + 256 * leVal rest

/-- Little-endian accumulation of `width` bytes starting at `off`, the value
computed by the `for` loops in `readU64`/`readU128`. -/
def lePart (buf : List Nat) (off : Nat) : Nat → Nat
  | 0 => 0
  | w + 1 => byteAt buf off + 256 * lePart buf (off + 1) w

/-- `readU8` from support.ts (in-context value; out of range gives
`undefined`, surfaced as `Val.undef` by callers that store it). -/
def readU8 (buf : List Nat) (off : Nat) : Nat × Nat := (byteAt buf off, off + 1)

/-- `readU16` from support.ts: `buf[o] | (buf[o+1] << 8)`. -/
def readU16 (buf : List Nat) (off : Nat) : Nat × Nat :=
  (byteAt buf off + 256 * byteAt buf (off + 1), off + 2)

/-- `readU32` from support.ts: 4-byte little-endian with a final `>>> 0`. -/
def readU32 (buf : List Nat) (off : Nat) : Nat × Nat :=
  (byteAt buf off + 256 * byteAt buf (off + 1) + 65536 * byteAt buf (off + 2)
    + 16777216 * byteAt buf (off + 3), off + 4)

/-- The `BigInt` loops of `readU64`/`readU128` (width 8 resp. 16):
`BigInt(buf[o+i])` throws a `TypeError` when the index is out of range, so the
read fails unless the whole window is inside the buffer. -/
def readBig (width : Nat) (buf : List Nat) (off : Nat) :
    Except String (Nat × Nat) :=
  if off + width ≤ buf.length then .ok (lePart buf off width, off + width)
  else .error "TypeError: Cannot convert undefined to a BigInt"

/-- `readCompactU32` from src/src/types/ink/support.ts.  The two low bits of
the first byte select the mode.  Modes 0–2 read through `|` chains, which
coerce out-of-range `undefined` to 0 and never throw; mode 3 reads
`4 + (b0 >> 2)` further bytes through `BigInt(buf[offset + 1 + i])`, which
throws a `TypeError` as soon as an index is out of range, i.e. whenever the
window runs past the buffer. -/
def readCompactU32 (buf : List Nat) (off : Nat) : Except String (Nat × Nat) :=
  let b0 := byteAt buf off
  if b0 % 4 = 0 then .ok (b0 / 4, off + 1)
  else if b0 % 4 = 1 then .ok ((b0 + 256 * byteAt buf (off + 1)) / 4, off + 2)
  else if b0 % 4 = 2 then
    .ok ((b0 + 256 * byteAt buf (off + 1) + 65536 * byteAt buf (off + 2)
      + 16777216 * byteAt buf (off + 3)) / 4, off + 4)
  else
    let byteLen := 4 + b0 / 4
    if off + 1 + byteLen ≤ buf.length then
      .ok (leVal ((buf.drop (off + 1)).take byteLen), off + 1 + byteLen)
    else .error "TypeError: Cannot convert undefined to a BigInt"

/-- Modelled from the spec sentence behind claim C3, for comparison with
`readCompactU32`: in mode `11` the remaining 6 bits of byte 0 are "an
extra-byte count `n`", and the value is formed "from the following `n`
little-endian bytes" (the claim's words describe only a normal return). -/
def compactClaimC3 (buf : List Nat) (off : Nat) : Nat × Nat :=
  let b0 := byteAt buf off
  if b0 % 4 = 0 then (b0 / 4, off + 1)
  else if b0 % 4 = 1 then ((b0 + 256 * byteAt buf (off + 1)) / 4, off + 2)
  else if b0 % 4 = 2 then
    ((b0 + 256 * byteAt buf (off + 1) + 65536 * byteAt buf (off + 2)
      + 16777216 * byteAt buf (off + 3)) / 4, off + 4)
  else
    let n := b0 / 4
    (leVal ((buf.drop (off + 1)).take n), off + 1 + n)

/-! Generated decoders from src/src/types/ink/guess_the_number/v0.1.0/events.ts.
Each `assert` that fails is a thrown `Error`, i.e. `Except.error`; the result
object is built by successive `result[label] = value` assignments (`mapSet`). -/

/-- `EVENT_SIGNATURES` from events.ts: normalized hex (no 0x prefix) to event
name. -/
def eventSignatures : List (String × String) :=
  [("c8a7c5d86cdaf43555273e08a00e4cdaa93cf22046685231d5eb1b6c0d29fa92", "new_game"),
   ("bfe3e4de23c556408a7c400baf6b27364bdb763595ac8f3547c20db70131083a", "guess_made"),
   ("d30c753e3012d98d428abde3eebaae62a09d7d043d8018f1ecb4e6c5d3dc9429", "clue_given"),
   ("4ee61a2092334a28b8ce7389a8ba2a9c1a9909e0c95b01cbbafb07b7bb576048", "meta_transaction_decoded"),
   ("9fcfc0869a89de6464b06891fcfa026e1ac809ce01300cd76a342e696297dd20", "role_granted"),
   ("67cf5731bde3ef79029b3c63ea7a49b0e816d53d665ff88e412b696684ab9c11", "role_revoked"),
   ("cfd8f7cee62376e0a894a1c5d124ec219dc678fd742bcb7f183455a362744aa1", "message_queued"),
   ("db1dbb06d6c5f62bcd2d0b8e2b251826b43e15a2b17b80080837dc8cd561a283", "message_processed")]

/-- `decodeNewGame`: indexed `game_number` (u128 from topic 1) and `player`
(last 20 bytes of topic 2, hex), then non-indexed `min_number`/`max_number`
(u16 at data offsets 0 and 2). -/
def decodeNewGame (dataHex : String) (topics : List String) :
    Except String (List (String × Val)) := do
  let data := hexToBytes dataHex
  if 1 < topics.length then pure ()
    else throw "Missing topic for indexed arg game_number"
  let tb1 := hexToBytes (topics.getD 1 "")
  if 32 ≤ tb1.length then pure ()
    else throw "Invalid topic length for indexed arg game_number"
  let r1 ← readBig 16 tb1 0
  if 2 < topics.length then pure ()
    else throw "Missing topic for indexed arg player"
  let tb2 := hexToBytes (topics.getD 2 "")
  if 32 ≤ tb2.length then pure ()
    else throw "Invalid topic length for indexed arg player"
  let playerHex := bytesToHex (tb2.drop (tb2.length - 20))
  if 0 ≤ data.length then pure () else throw "Offset overflow for arg min_number"
  let r3 := readU16 data 0
  if r3.2 ≤ data.length then pure ()
    else throw "Offset overflow for arg max_number"
  let r4 := readU16 data r3.2
  pure (mapSet (mapSet (mapSet (mapSet [] "game_number" (.big r1.1))
    "player" (.str playerHex)) "min_number" (.num r3.1)) "max_number" (.num r4.1))

/-- `decodeGuessMade`: indexed `game_number` (u128 from topic 1), then
non-indexed `attempt` (u32 at 0) and `guess` (u16 at 4). -/
def decodeGuessMade (dataHex : String) (topics : List String) :
    Except String (List (String × Val)) := do
  let data := hexToBytes dataHex
  if 1 < topics.length then pure ()
    else throw "Missing topic for indexed arg game_number"
  let tb1 := hexToBytes (topics.getD 1 "")
  if 32 ≤ tb1.length then pure ()
    else throw "Invalid topic length for indexed arg game_number"
  let r1 ← readBig 16 tb1 0
  if 0 ≤ data.length then pure () else throw "Offset overflow for arg attempt"
  let r2 := readU32 data 0
  if r2.2 ≤ data.length then pure () else throw "Offset overflow for arg guess"
  let r3 := readU16 data r2.2
  pure (mapSet (mapSet (mapSet [] "game_number" (.big r1.1))
    "attempt" (.num r2.1)) "guess" (.num r3.1))

/-- The all-unit-variant decode emitted inline for `clue`:
`const idx = data[offset]; const map = ["More","Less","Found"];
value = map[idx] || 'Unknown'`. -/
def clueName (data : List Nat) (off : Nat) : String :=
  match data.get? off with
  | none => "Unknown"
  | some i =>
    let s := (["More", "Less", "Found"]).getD i ""
    if s = "" then "Unknown" else s

/-- `decodeClueGiven`: indexed `game_number`, then `attempt` (u32 at 0),
`guess` (u16 at 4) and the unit-variant `clue` (1 byte at 6). -/
def decodeClueGiven (dataHex : String) (topics : List String) :
    Except String (List (String × Val)) := do
  let data := hexToBytes dataHex
  if 1 < topics.length then pure ()
    else throw "Missing topic for indexed arg game_number"
  let tb1 := hexToBytes (topics.getD 1 "")
  if 32 ≤ tb1.length then pure ()
    else throw "Invalid topic length for indexed arg game_number"
  let r1 ← readBig 16 tb1 0
  if 0 ≤ data.length then pure () else throw "Offset overflow for arg attempt"
  let r2 := readU32 data 0
  if r2.2 ≤ data.length then pure () else throw "Offset overflow for arg guess"
  let r3 := readU16 data r2.2
  if r3.2 ≤ data.length then pure () else throw "Offset overflow for arg clue"
  let clue := clueName data r3.2
  pure (mapSet (mapSet (mapSet (mapSet [] "game_number" (.big r1.1))
    "attempt" (.num r2.1)) "guess" (.num r3.1)) "clue" (.str clue))

/-- `decodeMetaTransactionDecoded`: no declared args; the data hex is still
parsed. -/
def decodeMetaTransactionDecoded (dataHex : String) (_topics : List String) :
    Except String (List (String × Val)) := do
  let _data := hexToBytes dataHex
  pure []

/-- The inline `[u8; 20]` array decode used for `grantor`/`sender`: twenty
`readU8` calls whose values are `undefined` past the end of the buffer. -/
def byteArray20 (data : List Nat) (off : Nat) : List Val :=
  (List.range 20).map (fun i =>
    match data.get? (off + i) with
    | some b => Val.num b
    | none => Val.undef)

/-- `decodeRoleGranted`: indexed `role` (u32 from topic 1) and `grantee`
(last 20 bytes of topic 2), then `grantor`, a composite whose single field is
a 20-byte array. -/
def decodeRoleGranted (dataHex : String) (topics : List String) :
    Except String (List (String × Val)) := do
  let data := hexToBytes dataHex
  if 1 < topics.length then pure ()
    else throw "Missing topic for indexed arg role"
  let tb1 := hexToBytes (topics.getD 1 "")
  if 32 ≤ tb1.length then pure ()
    else throw "Invalid topic length for indexed arg role"
  let r1 := readU32 tb1 0
  if 2 < topics.length then pure ()
    else throw "Missing topic for indexed arg grantee"
  let tb2 := hexToBytes (topics.getD 2 "")
  if 32 ≤ tb2.length then pure ()
    else throw "Invalid topic length for indexed arg grantee"
  let granteeHex := bytesToHex (tb2.drop (tb2.length - 20))
  if 0 ≤ data.length then pure () else throw "Offset overflow for arg grantor"
  let grantor := Val.obj [("field0", .list (byteArray20 data 0))]
  pure (mapSet (mapSet (mapSet [] "role" (.num r1.1))
    "grantee" (.str granteeHex)) "grantor" grantor)

/-- `decodeRoleRevoked`: same shape as `decodeRoleGranted` with labels
`role`, `account`, `sender`. -/
def decodeRoleRevoked (dataHex : String) (topics : List String) :
    Except String (List (String × Val)) := do
  let data := hexToBytes dataHex
  if 1 < topics.length then pure ()
    else throw "Missing topic for indexed arg role"
  let tb1 := hexToBytes (topics.getD 1 "")
  if 32 ≤ tb1.length then pure ()
    else throw "Invalid topic length for indexed arg role"
  let r1 := readU32 tb1 0
  if 2 < topics.length then pure ()
    else throw "Missing topic for indexed arg account"
  let tb2 := hexToBytes (topics.getD 2 "")
  if 32 ≤ tb2.length then pure ()
    else throw "Invalid topic length for indexed arg account"
  let accountHex := bytesToHex (tb2.drop (tb2.length - 20))
  if 0 ≤ data.length then pure () else throw "Offset overflow for arg sender"
  let sender := Val.obj [("field0", .list (byteArray20 data 0))]
  pure (mapSet (mapSet (mapSet [] "role" (.num r1.1))
    "account" (.str accountHex)) "sender" sender)

/-- `decodeMessageQueued`: indexed `id` (u32 from topic 1), then the
`Vec<u8>` arg `data`: compact length, raw byte slice, offset at slice end. -/
def decodeMessageQueued (dataHex : String) (topics : List String) :
    Except String (List (String × Val)) := do
  let data := hexToBytes dataHex
  if 1 < topics.length then pure ()
    else throw "Missing topic for indexed arg id"
  let tb1 := hexToBytes (topics.getD 1 "")
  if 32 ≤ tb1.length then pure ()
    else throw "Invalid topic length for indexed arg id"
  let r1 := readU32 tb1 0
  if 0 ≤ data.length then pure () else throw "Offset overflow for arg data"
  let lenR ← readCompactU32 data 0
  let payload := Val.bytes ((data.drop lenR.2).take lenR.1)
  pure (mapSet (mapSet [] "id" (.num r1.1)) "data" payload)

/-- `decodeMessageProcessed`: only the indexed `id` (u32 from topic 1). -/
def decodeMessageProcessed (dataHex : String) (topics : List String) :
    Except String (List (String × Val)) := do
  let _data := hexToBytes dataHex
  if 1 < topics.length then pure ()
    else throw "Missing topic for indexed arg id"
  let tb1 := hexToBytes (topics.getD 1 "")
  if 32 ≤ tb1.length then pure ()
    else throw "Invalid topic length for indexed arg id"
  let r1 := readU32 tb1 0
  pure (mapSet [] "id" (.num r1.1))

/-- `decodeEvent` from events.ts: a `switch` on the raw signature over the
eight known keys; the default branch returns `null` (`none`). -/
def decodeEvent (signatureHex dataHex : String) (topics : List String) :
    Except String (Option (String × List (String × Val))) :=
  if signatureHex = "c8a7c5d86cdaf43555273e08a00e4cdaa93cf22046685231d5eb1b6c0d29fa92" then
    (decodeNewGame dataHex topics).map (fun d => some ("new_game", d))
  else if signatureHex = "bfe3e4de23c556408a7c400baf6b27364bdb763595ac8f3547c20db70131083a" then
    (decodeGuessMade dataHex topics).map (fun d => some ("guess_made", d))
  else if signatureHex = "d30c753e3012d98d428abde3eebaae62a09d7d043d8018f1ecb4e6c5d3dc9429" then
    (decodeClueGiven dataHex topics).map (fun d => some ("clue_given", d))
  else if signatureHex = "4ee61a2092334a28b8ce7389a8ba2a9c1a9909e0c95b01cbbafb07b7bb576048" then
    (decodeMetaTransactionDecoded dataHex topics).map
      (fun d => some ("meta_transaction_decoded", d))
  else if signatureHex = "9fcfc0869a89de6464b06891fcfa026e1ac809ce01300cd76a342e696297dd20" then
    (decodeRoleGranted dataHex topics).map (fun d => some ("role_granted", d))
  else if signatureHex = "67cf5731bde3ef79029b3c63ea7a49b0e816d53d665ff88e412b696684ab9c11" then
    (decodeRoleRevoked dataHex topics).map (fun d => some ("role_revoked", d))
  else if signatureHex = "cfd8f7cee62376e0a894a1c5d124ec219dc678fd742bcb7f183455a362744aa1" then
    (decodeMessageQueued dataHex topics).map (fun d => some ("message_queued", d))
  else if signatureHex = "db1dbb06d6c5f62bcd2d0b8e2b251826b43e15a2b17b80080837dc8cd561a283" then
    (decodeMessageProcessed dataHex topics).map
      (fun d => some ("message_processed", d))
  else .ok none

/-! Models of src/src/decoders/subsquid-inkv6-decoder.ts (class
`SubsquidInkDecoder`).  Type definitions follow the `InkTypeDefinition`
interface; `Map` caches are association lists built with `mapSet`. -/

/-- One field of a composite type definition. -/
structure CField where
  name : Option String
  ty : Nat
deriving DecidableEq, Repr

/-- One case of a variant type definition. -/
structure VCase where
  idx : Nat
  name : String
deriving DecidableEq, Repr

/-- The `type.def` payload of an `InkTypeDefinition`: exactly one of the
optional shapes is expected to be present. -/
structure TDef where
  primitive : Option String := none
  composite : Option (List CField) := none
  variants : Option (List VCase) := none
  arrayDef : Option (Nat × Nat) := none
  tuple : Option (List Nat) := none
deriving DecidableEq, Repr

/-- An event argument from metadata (`label`, numeric `type`, `indexed`). -/
structure ArgMeta where
  label : String
  ty : Nat
  indexed : Bool
deriving DecidableEq, Repr

/-- An event entry from metadata (`label`, `args`, `signature_topic`).
`none` models a missing (`undefined`) `signature_topic`; `some ""` a
present empty string — the two differ in `loadMetadata`, where
`undefined.startsWith` throws but `"".startsWith` does not. -/
structure EventMeta where
  label : String
  args : List ArgMeta
  signatureTopic : Option String
deriving DecidableEq, Repr

/-- JS truthiness of the `signature_topic` field as `validateMetadata`'s
`some(e => e.signature_topic)` tests it: `undefined` and `""` are falsy. -/
def sigTruthy : Option String → Bool
  | none => false
  | some s => s != ""

/-- `ToInt32` as the `|`-chain of `readU32` in the subsquid decoder produces
it (that private `readU32` has no final `>>> 0`, unlike support.ts). -/
def jsToInt32 (n : Nat) : Int :=
  if n % 4294967296 < 2147483648 then ((n % 4294967296 : Nat) : Int)
  else ((n % 4294967296 : Nat) : Int) - 4294967296

/-- Private `readU16` of `SubsquidInkDecoder`. -/
def sqReadU16 (buf : List Nat) (off : Nat) : Nat :=
  byteAt buf off + 256 * byteAt buf (off + 1)

/-- Private `readU32` of `SubsquidInkDecoder` (signed, no `>>> 0`). -/
def sqReadU32 (buf : List Nat) (off : Nat) : Int :=
  jsToInt32 (byteAt buf off + 256 * byteAt buf (off + 1)
    + 65536 * byteAt buf (off + 2) + 16777216 * byteAt buf (off + 3))

/-- Private `readI8`. -/
def sqReadI8 (buf : List Nat) (off : Nat) : Int :=
  let v := byteAt buf off
  if v > 127 then (v : Int) - 256 else v

/-- Private `readI16`. -/
def sqReadI16 (buf : List Nat) (off : Nat) : Int :=
  let v := sqReadU16 buf off
  if v > 32767 then (v : Int) - 65536 else v

/-- Private `readI32`. -/
def sqReadI32 (buf : List Nat) (off : Nat) : Int :=
  let v := sqReadU32 buf off
  if v > 2147483647 then v - 4294967296 else v

/-- Private `decodeString`: (signed) u32 length, then
`bytes.slice(offset + 4, offset + 4 + length)` decoded as UTF-8, with
`newOffset = offset + 4 + length`.  The slice end is resolved as JS does
(negative ⇒ relative to the buffer end, then clamped at 0).  The one
deviation: for a negative length the JS cursor `offset + 4 + length` can go
below 0, which the `Nat` offsets of this model clamp at 0 (`Int.toNat`). -/
def sqDecodeString (buf : List Nat) (off : Nat) : Except String (Val × Nat) :=
  let l := sqReadU32 buf off
  let endI : Int := (off : Int) + 4 + l
  let endR : Nat :=
    (if endI < 0 then (buf.length : Int) + endI else endI).toNat
  .ok (.utf8 ((buf.drop (off + 4)).take (endR - (off + 4))), endI.toNat)

/-- Private `decodePrimitive` of `SubsquidInkDecoder`. -/
def decodePrimitiveSq (bytes : List Nat) (off : Nat) (p : String) :
    Except String (Val × Nat) :=
  if p = "u8" then
    .ok ((match bytes.get? off with
          | some b => Val.num b
          | none => Val.undef), off + 1)
  else if p = "u16" then .ok (.num (sqReadU16 bytes off), off + 2)
  else if p = "u32" then .ok (.num (sqReadU32 bytes off), off + 4)
  else if p = "u64" then do
    let r ← readBig 8 bytes off
    pure (.big r.1, off + 8)
  else if p = "u128" then do
    let r ← readBig 16 bytes off
    pure (.big r.1, off + 16)
  else if p = "i8" then .ok (.num (sqReadI8 bytes off), off + 1)
  else if p = "i16" then .ok (.num (sqReadI16 bytes off), off + 2)
  else if p = "i32" then .ok (.num (sqReadI32 bytes off), off + 4)
  else if p = "i64" then do
    let r ← readBig 8 bytes off
    pure (.big (if (r.1 : Int) > 9223372036854775807
      then (r.1 : Int) - 18446744073709551616 else (r.1 : Int)), off + 8)
  else if p = "i128" then do
    let r ← readBig 16 bytes off
    pure (.big (if (r.1 : Int) > 170141183460469231731687303715884105727
      then (r.1 : Int) - 340282366920938463463374607431768211456
      else (r.1 : Int)), off + 16)
  else if p = "bool" then
    .ok (.boolv (match bytes.get? off with
          | some b => b != 0
          | none => true), off + 1)
  else if p = "str" then sqDecodeString bytes off
  else .error ("Unsupported primitive type: " ++ p)

/-- Private `decodeVariant` of `SubsquidInkDecoder`: the discriminant byte
indexes the `variants` array positionally (the declared `index` field is
ignored) and an out-of-range discriminant throws `Invalid variant index`. -/
def decodeVariantSq (vs : List VCase) (bytes : List Nat) (off : Nat) :
    Except String (Val × Nat) :=
  match bytes.get? off with
  | none => .error "Invalid variant index: undefined"
  | some i =>
    match vs.get? i with
    | none => .error ("Invalid variant index: " ++ toString i)
    | some vd => .ok (.str vd.name, off + 1)

/-- Private `isAddressType`: the source additionally requires
`typeof fieldType === 'string' && fieldType === 'u8' && size === 20`, but
field types in this metadata are numeric ids, so that conjunct is `false`. -/
def isAddressType (t : TDef) : Bool :=
  match t.composite with
  | some [f] => (f.name == some "value") && false
  | _ => false

/-- Private `convertAddressToHex`. -/
def convertAddressToHex (v : Val) : Val :=
  match v with
  | .obj fs =>
    match alookup "field" fs with
    | some (.list xs) =>
      .str ⟨'0' :: 'x' ::
        (xs.map (fun x => match x with
          | .num n => byteHex n.toNat
          | _ => [])).flatten⟩
    | _ => v
  | _ => v

/-- One unfolding of the private `decodeValue` of `SubsquidInkDecoder`,
type-directed over the type cache; `rec` is the recursive call used for
nested fields/elements.  A missing field or element type is skipped with a
warning (`pure acc`), mirroring `continue`. -/
def decodeValueF (table : List (Nat × TDef))
    (rec : TDef → List Nat → Nat → Except String (Val × Nat)) (t : TDef)
    (bytes : List Nat) (off : Nat) : Except String (Val × Nat) :=
  match t.primitive with
  | some p => decodePrimitiveSq bytes off p
  | none =>
  match t.composite with
  | some fields => do
    let r ← fields.foldlM (fun (acc : List (String × Val) × Nat) f => do
        match alookup f.ty table with
        | none => pure acc
        | some td => do
          let (v, no) ← rec td bytes acc.2
          let nm := f.name.getD ""
          pure (mapSet acc.1 (if nm = "" then "field" else nm) v, no))
      ([], off)
    let v0 := Val.obj r.1
    pure (if isAddressType t then convertAddressToHex v0 else v0, r.2)
  | none =>
  match t.variants with
  | some vs => decodeVariantSq vs bytes off
  | none =>
  match t.arrayDef with
  | some (len, ety) => do
    let r ← (List.range len).foldlM (fun (acc : List Val × Nat) _ => do
        match alookup ety table with
        | none => pure acc
        | some td => do
          let (v, no) ← rec td bytes acc.2
          pure (acc.1 ++ [v], no))
      ([], off)
    pure (.list r.1, r.2)
  | none =>
  match t.tuple with
  | some ids => do
    let r ← ids.foldlM (fun (acc : List Val × Nat) tid => do
        match alookup tid table with
        | none => pure acc
        | some td => do
          let (v, no) ← rec td bytes acc.2
          pure (acc.1 ++ [v], no))
      ([], off)
    pure (.list r.1, r.2)
  | none => .error "Unsupported type definition"

/-- Private `decodeValue` of `SubsquidInkDecoder`.  The JS engine bounds the
recursion only by its call stack; `fuel` models that bound (exhaustion is
the stack-overflow error on a malformed cyclic type graph). -/
def decodeValue (table : List (Nat × TDef)) : Nat → TDef → List Nat → Nat →
    Except String (Val × Nat)
  | 0 => fun _ _ _ => .error "RangeError: Maximum call stack size exceeded"
  | fuel + 1 => decodeValueF table (decodeValue table fuel)

/-- Private `decodeEventData` of `SubsquidInkDecoder`: (1) decode indexed
args from topics (topic cursor starts at 1; a missing topic or type is
skipped silently), (2) advance the data offset past every indexed argument's
encoding in the data buffer, (3) decode non-indexed args from that offset. -/
def decodeEventData (table : List (Nat × TDef)) (fuel : Nat)
    (eventBytes : List Nat) (args : List ArgMeta) (topics : List String) :
    Except String (List (String × Val)) := do
  let p1 ← args.foldlM (fun (acc : List (String × Val) × Nat) arg => do
      if arg.indexed then
        if acc.2 < topics.length then
          match alookup arg.ty table with
          | some td => do
            let tb := hexToBytes (topics.getD acc.2 "")
            let (v, _) ← decodeValue table fuel td tb 0
            pure (mapSet acc.1 arg.label v, acc.2 + 1)
          | none => pure (acc.1, acc.2 + 1)
        else pure acc
      else pure acc)
    ([], 1)
  let dataOff ← args.foldlM (fun (off : Nat) arg => do
      if arg.indexed then
        match alookup arg.ty table with
        | some td => do
          let (_, no) ← decodeValue table fuel td eventBytes off
          pure no
        | none => pure off
      else pure off)
    0
  let p3 ← args.foldlM (fun (acc : List (String × Val) × Nat) arg => do
      if arg.indexed then pure acc
      else
        match alookup arg.ty table with
        | none => pure acc
        | some td => do
          let (v, no) ← decodeValue table fuel td eventBytes acc.2
          pure (mapSet acc.1 arg.label v, no))
    (p1.1, dataOff)
  pure p3.1

/-- Public `decodeEvent` of `SubsquidInkDecoder`: empty topics or an unknown
(0x-stripped, not lowercased) signature return `null`; any thrown decode
error is caught and also yields `null`.  `typeMapping` is
`config.eventTypeMapping`; an unmapped label falls back to
`label.toLowerCase()`. -/
def sqDecodeEvent (eventCache : List (String × EventMeta))
    (table : List (Nat × TDef)) (typeMapping : List (String × String))
    (fuel : Nat) (eventData : String) (topics : List String) :
    Option (String × List (String × Val) × List String) :=
  match topics with
  | [] => none
  | t0 :: _ =>
    match alookup (strip0x t0) eventCache with
    | none => none
    | some em =>
      match (do
        let eb := hexToBytes eventData
        decodeEventData table fuel eb em.args topics :
          Except String (List (String × Val))) with
      | .error _ => none
      | .ok data =>
        let mapped := (alookup em.label typeMapping).getD ""
        let ety := if mapped = "" then asciiLower em.label else mapped
        some (ety, data, topics)

/-! Metadata loading and validation. -/

/-- A JSON field that should hold a list: absent/falsy, present but not an
array, or an actual array. -/
inductive JList (α : Type) where
  | missing
  | notList
  | list (xs : List α)
deriving DecidableEq

/-- One entry of the metadata `types` array. -/
structure TypeEntry where
  id : Nat
  tdef : TDef
deriving DecidableEq

/-- The `spec` section of a metadata document. -/
structure SpecSection where
  events : JList EventMeta
deriving DecidableEq

/-- A parsed metadata document: `version` (absent or numeric), optional
`spec` section, and the `types` field. -/
structure MetaDoc where
  version : Option Int
  spec : Option SpecSection
  types : JList TypeEntry
deriving DecidableEq

/-- `validateMetadata` from the generator script: rejects a null document,
`version !== 6`, a missing/non-array `spec.events` or `types`, and a
document in which no event has a truthy `signature_topic`. -/
def validateMetadata (doc : Option MetaDoc) : Except String Unit :=
  match doc with
  | none => .error "Invalid metadata: empty or null"
  | some m =>
    if m.version ≠ some 6 then .error "Unsupported Ink! version"
    else
      match m.spec with
      | none => .error "Missing or invalid spec.events"
      | some sp =>
        match sp.events with
        | .missing => .error "Missing or invalid spec.events"
        | .notList => .error "Missing or invalid spec.events"
        | .list evs =>
          match m.types with
          | .missing => .error "Missing or invalid types array"
          | .notList => .error "Missing or invalid types array"
          | .list _ =>
            if evs.any (fun e => sigTruthy e.signatureTopic) then .ok ()
            else .error "No events with signature_topic found"

/-- Body of the `metadata.events.forEach` in `loadMetadata`: an event whose
`signature_topic` is missing makes `event.signature_topic.startsWith('0x')`
throw a `TypeError`, which the surrounding catch rethrows as the load
failure; otherwise the 0x-stripped topic keys the cache. -/
def loadEventStep (acc : List (String × EventMeta)) (e : EventMeta) :
    Except String (List (String × EventMeta)) :=
  match e.signatureTopic with
  | none => .error "Failed to load metadata"
  | some s => .ok (mapSet acc (strip0x s) e)

/-- Private `loadMetadata` of `SubsquidInkDecoder`, after a successful file
read and JSON parse: `rawMetadata.spec?.events || []` and
`rawMetadata.types || []` (no version or shape validation), then the event
cache keyed by the 0x-stripped `signature_topic` and the type cache keyed by
id.  `forEach` on a truthy non-array throws, as does an event record without
a `signature_topic`; the surrounding catch rethrows either as the load
failure. -/
def sqLoadMetadata (m : MetaDoc) :
    Except String (List (String × EventMeta) × List (Nat × TDef)) := do
  let evs ← (match m.spec with
    | none => Except.ok []
    | some sp =>
      match sp.events with
      | .missing => Except.ok []
      | .notList => Except.error "Failed to load metadata"
      | .list evs => Except.ok evs)
  let eventCache ← evs.foldlM loadEventStep []
  let ts ← (match m.types with
    | .missing => Except.ok []
    | .notList => Except.error "Failed to load metadata"
    | .list ts => Except.ok ts)
  let typeCache := ts.foldl (fun acc t => mapSet acc t.id t.tdef) []
  pure (eventCache, typeCache)

/-! Models of the decoder-generator templates in the codegen CLI script
(gen-ink-decoder.js): the semantics of the TypeScript each template emits. -/

/-- The generator's view of a type entry: `type.def.primitive` and
`type.path`. -/
structure GDef where
  primitive : Option String := none
  path : Option (List String) := none
deriving DecidableEq, Repr

/-- The indexed-argument decode emitted by `generateEventDecoder`: `u128`,
`u32`, `u16` primitives read little-endian from topic offset 0; the
`primitive_types.H160` path takes the last 20 bytes of the topic,
hex-encoded; any other (or unknown) type stores the raw topic hex. -/
def genIndexedDecode (tdef : Option GDef) (t : String) : Except String Val := do
  let tb := hexToBytes t
  if 32 ≤ tb.length then pure ()
    else throw "Invalid topic length for indexed arg"
  match tdef with
  | some d =>
    if d.primitive = some "u128" then do
      let r ← readBig 16 tb 0
      pure (.big r.1)
    else if (d.path.map (String.intercalate "." ·)) = some "primitive_types.H160" then
      pure (.str (bytesToHex (tb.drop (tb.length - 20))))
    else if d.primitive = some "u32" then pure (.num (readU32 tb 0).1)
    else if d.primitive = some "u16" then pure (.num (readU16 tb 0).1)
    else pure (.str t)
  | none => pure (.str t)

/-- The all-unit-variant decode emitted by `generateDecodeCall`:
`map[idx] || 'Unknown'`, one byte consumed, never a throw. -/
def genUnitVariantDecode (names : List String) (buf : List Nat) (off : Nat) :
    Val × Nat :=
  match buf.get? off with
  | none => (.str "Unknown", off + 1)
  | some i =>
    let s := names.getD i ""
    ((.str (if s = "" then "Unknown" else s)), off + 1)

/-- The fielded-variant decode emitted by `generateDecodeCall`: a `switch`
on the discriminant over the declared variant indices (each case body
decodes that variant's fields after the discriminant byte); the `default`
branch yields `{tag:'UnknownVariant', index: discriminant}` without
throwing. -/
def genVariantDecode
    (cases : List (Nat × (List Nat → Nat → Except String (Val × Nat))))
    (buf : List Nat) (off : Nat) : Except String (Val × Nat) :=
  match buf.get? off with
  | some d =>
    (match alookup d cases with
     | some body => body buf (off + 1)
     | none =>
       .ok (.obj [("tag", .str "UnknownVariant"), ("index", .num d)], off + 1))
  | none =>
    .ok (.obj [("tag", .str "UnknownVariant"), ("index", .undef)], off + 1)

/-- The `Vec<u8>` special case emitted by `generateDecodeCall`: compact
length (whose mode-3 read can throw on a short buffer), then the raw byte
slice `[start, start+len)`, new offset at the slice end. -/
def genVecU8Decode (buf : List Nat) (off : Nat) : Except String (Val × Nat) := do
  let lenR ← readCompactU32 buf off
  pure (.bytes ((buf.drop lenR.2).take lenR.1), lenR.2 + lenR.1)

/-- The `for (let i = 0; i < count; i++)` body of the generic `Vec<T>`
template: decode one element, push its value, advance the offset. -/
def genVecLoop (elemDecode : List Nat → Nat → Except String (Val × Nat))
    (buf : List Nat) : Nat → List Val → Nat → Except String (List Val × Nat)
  | 0, arr, off => .ok (arr, off)
  | n + 1, arr, off => do
    let (v, no) ← elemDecode buf off
    genVecLoop elemDecode buf n (arr ++ [v]) no

/-- The generic `Vec<T>` loop emitted by `generateDecodeCall`: compact
length, then that many element decodes threading the offset. -/
def genVecDecode (elemDecode : List Nat → Nat → Except String (Val × Nat))
    (buf : List Nat) (off : Nat) : Except String (Val × Nat) := do
  let lenR ← readCompactU32 buf off
  let r ← genVecLoop elemDecode buf lenR.1 [] lenR.2
  pure (.list r.1, r.2)

/-- The sequence dispatch of `generateDecodeCall`: the raw-slice template is
emitted exactly when the element type id is 5 (`u8` in this contract's
metadata), otherwise the element-loop template. -/
def genSeqDecode (elemTypeId : Nat)
    (elemDecode : List Nat → Nat → Except String (Val × Nat))
    (buf : List Nat) (off : Nat) : Except String (Val × Nat) :=
  if elemTypeId = 5 then genVecU8Decode buf off
  else genVecDecode elemDecode buf off

/-- Specification-side sequential decode used to state what the `Vec<T>`
loop computes: decode exactly `n` elements front to back. -/
def decodeN (elemDecode : List Nat → Nat → Except String (Val × Nat))
    (buf : List Nat) : Nat → Nat → Except String (List Val × Nat)
  | 0, off => .ok ([], off)
  | n + 1, off => do
    let (v, o1) ← elemDecode buf off
    let (vs, o2) ← decodeN elemDecode buf n o1
    pure (v :: vs, o2)

/-! The version registry (generated registry.ts, `resolveDecoder`). -/

/-- A `VersionEntry` from the generated registry: `fromB`/`toB` embed the
`from?`/`to?` fields (`none` models both `undefined` and `null`). -/
structure VersionEntry where
  version : String
  addresses : Option (List String) := none
  codeHash : Option String := none
  fromB : Option Nat := none
  toB : Option Nat := none
deriving DecidableEq, Repr

/-- The address filter of `resolveDecoder`: an absent or empty address list
is a wildcard, otherwise `indexOf(_address) !== -1` — an exact string
membership test, with no case normalization. -/
def addrMatch (a : String) (e : VersionEntry) : Bool :=
  match e.addresses with
  | some l => if 0 < l.length then l.contains a else true
  | none => true

/-- `a.from !== undefined ? a.from : 0`, the sort key. -/
def fromKey (e : VersionEntry) : Nat := e.fromB.getD 0

/-- The range filter of `resolveDecoder`: `!e.from || h >= e.from` and
`!e.to || h < e.to` — the falsy tests also accept `from = 0` / `to = 0`. -/
def rangeMatch (h : Nat) (e : VersionEntry) : Bool :=
  let fromOk := match e.fromB with
    | none => true
    | some f => f == 0 || decide (f ≤ h)
  let toOk := match e.toB with
    | none => true
    | some t => t == 0 || decide (h < t)
  fromOk && toOk

/-- Stable insertion step of the descending-by-`from` sort: an element moves
past strictly greater keys only, so equal keys keep their original order,
matching the stable JS `sort` with comparator `bFrom - aFrom`. -/
def insertDesc (x : VersionEntry) : List VersionEntry → List VersionEntry
  | [] => [x]
  | y :: ys => if fromKey x < fromKey y then y :: insertDesc x ys else x :: y :: ys

/-- Stable sort descending by `fromKey` (the `candidates.sort(...)` call). -/
def sortByFromDesc : List VersionEntry → List VersionEntry
  | [] => []
  | x :: xs => insertDesc x (sortByFromDesc xs)

/-- `resolveDecoder` from the generated registry.ts: filter by address,
then by block range, fall back to the address matches when no range matches,
throw `No decoder version found` when nothing is left, and pick the head of
the candidates sorted descending by `from`.  (The source then maps the
entry's version tag to its module through a `switch`; resolution itself is
what is modelled.) -/
def resolveDecoder (registry : List VersionEntry) (a : String) (h : Nat) :
    Except String VersionEntry :=
  let addressMatches := registry.filter (addrMatch a)
  let rangeMatches := addressMatches.filter (rangeMatch h)
  let candidates := if 0 < rangeMatches.length then rangeMatches
    else addressMatches
  match (sortByFromDesc candidates).head? with
  | none => .error ("No decoder version found for address " ++ a)
  | some e => .ok e

/-- The single entry of the registry generated for this contract
(`{version:'v0.1.0', addresses:['0xe75c…'], from:1934744, to:null}`). -/
def entry0 : VersionEntry :=
  { version := "v0.1.0",
    addresses := some ["0xe75cbd47620dbb2053cf2a98d06840f06baaf141"],
    fromB := some 1934744, toB := none }

/-- The registry constant generated for this contract. -/
def registry0 : List VersionEntry := [entry0]

/-! Concrete fixtures used to instantiate the claims. -/

/-- The `u128` primitive type definition. -/
def tU128 : TDef := { primitive := some "u128" }

/-- The `u16` primitive type definition. -/
def tU16 : TDef := { primitive := some "u16" }

/-- A two-entry type cache: id 1 is u128, id 2 is u16. -/
def tableC1 : List (Nat × TDef) := [(1, tU128), (2, tU16)]

/-- Args of an event with one indexed u128 and one non-indexed u16, the
shape of `NewGame`'s `game_number`/`min_number` pair. -/
def argsC1 : List ArgMeta :=
  [{ label := "game_number", ty := 1, indexed := true },
   { label := "min_number", ty := 2, indexed := false }]

/-- An 18-byte data buffer whose u16 at offset 0 is 7 and at offset 16 is 1. -/
def dataC1 : List Nat := 7 :: (List.replicate 15 0 ++ [1, 0])

/-- A 32-byte topic whose little-endian u128 value is 1. -/
def topicC1 : String :=
  "0x0100000000000000000000000000000000000000000000000000000000000000"

/-- A 32-byte topic whose last 20 bytes are the contract address. -/
def tH160 : String :=
  "0x000000000000000000000000e75cbd47620dbb2053cf2a98d06840f06baaf141"

/-- Event data for `ClueGiven`: attempt=1 (u32), guess=7 (u16), clue byte
0x05 (out of range for the 3-unit variant). -/
def clueDataHex : String := "0x01000000070005"

/-- Modelled from the spec: the contract's metadata JSON (not under src/)
assigns the `u8` primitive to type id 5 and to no other id, which is what
ties the generator's literal `elementType === 5` check to "T is u8". -/
def resolvesGuess : Nat → Option String :=
  fun i => if i = 5 then some "u8" else none

/-- A metadata document with `version: 5` but otherwise well-formed lists. -/
def docV5 : MetaDoc :=
  { version := some 5,
    spec := some
      ⟨.list [{ label := "NewGame", args := [], signatureTopic := some "0xabc" }]⟩,
    types := .list [] }

/-- The same document with `version: 6`. -/
def docV6 : MetaDoc :=
  { version := some 6,
    spec := some
      ⟨.list [{ label := "NewGame", args := [], signatureTopic := some "0xabc" }]⟩,
    types := .list [] }

/-- The registry address with its hex digits uppercased. -/
def upperAddr : String := "0xE75CBD47620DBB2053CF2A98D06840F06BAAF141"

/-! Helper lemmas shared by the claim theorems. -/

theorem alookup_eq_none {α β : Type} [DecidableEq α] (k : α) (m : List (α × β)) :
    alookup k m = none ↔ k ∉ m.map Prod.fst := by
  induction m with
  | nil => simp [alookup]
  | cons p rest ih =>
    by_cases h : p.1 = k
    · simp [alookup, h]
    · simp only [alookup, if_neg h, List.map_cons, List.mem_cons, ih]
      constructor
      · rintro hk (rfl | hmem)
        · exact h rfl
        · exact hk hmem
      · intro hk hmem
        exact hk (Or.inr hmem)

theorem lePart_eq_leVal (buf : List Nat) :
    ∀ (w off : Nat), lePart buf off w = leVal ((buf.drop off).take w) := by
  intro w
  induction w with
  | zero => intro off; simp [lePart, leVal]
  | succ w ih =>
    intro off
    rcases h : buf.drop off with _ | ⟨b, rest⟩
    · have hlen : buf.length ≤ off := List.drop_eq_nil_iff.mp h
      have h1 : buf.drop (off + 1) = [] := List.drop_eq_nil_iff.mpr (by omega)
      have hb : byteAt buf off = 0 := by
        show (buf.get? off).getD 0 = 0
        rw [List.get?_eq_none.mpr hlen]
        rfl
      simp [lePart, leVal, h, hb, ih, h1]
    · have hb : byteAt buf off = b := by
        show (buf.get? off).getD 0 = b
        have h0 := List.get?_drop buf off 0
        rw [h] at h0
        have h0' : buf.get? off = some b := by simpa using h0.symm
        rw [h0']
        rfl
      have h1 : buf.drop (off + 1) = rest := by
        have h2 : buf.drop (off + 1) = (buf.drop off).drop 1 := by
          rw [List.drop_drop]
        rw [h2, h]
        rfl
      simp [lePart, leVal, h, hb, ih, h1]

theorem readU16_val (buf : List Nat) (off : Nat) :
    (readU16 buf off).1 = leVal ((buf.drop off).take 2) := by
  have h := lePart_eq_leVal buf 2 off
  simp [lePart] at h
  simp [readU16]
  omega

theorem readU32_val (buf : List Nat) (off : Nat) :
    (readU32 buf off).1 = leVal ((buf.drop off).take 4) := by
  have h := lePart_eq_leVal buf 4 off
  simp [lePart] at h
  ring_nf at h ⊢
  simp [readU32]
  ring_nf
  omega

theorem hexDigitVal_hexDigitChar (d : Nat) (hd : d < 16) :
    hexDigitVal (hexDigitChar d) = some d := by
  interval_cases d <;> decide

theorem isLowerHexDigit_hexDigitChar (d : Nat) (hd : d < 16) :
    isLowerHexDigit (hexDigitChar d) := by
  interval_cases d <;> decide

theorem toHexDigitsGo_of_lt (fuel n : Nat) (h : n < 16) :
    toHexDigitsGo (fuel + 1) n = [hexDigitChar n] := by
  simp [toHexDigitsGo, h]

theorem byteHex_of_lt256 (b : Nat) (h : b < 256) :
    byteHex b = [hexDigitChar (b / 16), hexDigitChar (b % 16)] := by
  by_cases h16 : b < 16
  · have hd : b / 16 = 0 := Nat.div_eq_of_lt h16
    have hm : b % 16 = b := Nat.mod_eq_of_lt h16
    unfold byteHex toHexDigits
    rw [toHexDigitsGo_of_lt b b h16, hd, hm]
    rfl
  · have h1 : b / 16 < 16 := by omega
    obtain ⟨k, rfl⟩ : ∃ k, b = k + 1 := ⟨b - 1, by omega⟩
    unfold byteHex toHexDigits
    show padStart2 (toHexDigitsGo (k + 1 + 1) (k + 1)) = _
    rw [show toHexDigitsGo (k + 1 + 1) (k + 1) =
        toHexDigitsGo (k + 1) ((k + 1) / 16) ++ [hexDigitChar ((k + 1) % 16)]
      from by simp [toHexDigitsGo, h16],
      toHexDigitsGo_of_lt k _ h1]
    rfl

theorem parseHexPair_byte (b : Nat) (hb : b < 256) :
    parseHexPair (hexDigitChar (b / 16)) (hexDigitChar (b % 16)) = b := by
  unfold parseHexPair
  rw [hexDigitVal_hexDigitChar _ (by omega), hexDigitVal_hexDigitChar _ (by omega)]
  simp
  omega

theorem hexPairsToBytes_byteHex (b : Nat) (hb : b < 256) (rest : List Char) :
    hexPairsToBytes (byteHex b ++ rest) = b :: hexPairsToBytes rest := by
  rw [byteHex_of_lt256 b hb]
  show hexPairsToBytes (hexDigitChar (b / 16) :: hexDigitChar (b % 16) :: rest) = _
  have hstep : ∀ (c1 c2 : Char) (r : List Char),
      hexPairsToBytes (c1 :: c2 :: r) = parseHexPair c1 c2 :: hexPairsToBytes r :=
    fun _ _ _ => rfl
  rw [hstep, parseHexPair_byte b hb]

theorem flatten_byteHex_parse (bs : List Nat) (h : ∀ b ∈ bs, b < 256) :
    hexPairsToBytes ((bs.map byteHex).flatten) = bs := by
  induction bs with
  | nil => rfl
  | cons b rest ih =>
    simp only [List.map_cons, List.flatten_cons]
    rw [hexPairsToBytes_byteHex b (h b (by simp)),
      ih (fun x hx => h x (by simp [hx]))]

theorem flatten_byteHex_length (bs : List Nat) (h : ∀ b ∈ bs, b < 256) :
    ((bs.map byteHex).flatten).length = 2 * bs.length := by
  induction bs with
  | nil => rfl
  | cons b rest ih =>
    simp only [List.map_cons, List.flatten_cons, List.length_append,
      List.length_cons]
    rw [byteHex_of_lt256 b (h b (by simp)),
      ih (fun x hx => h x (by simp [hx]))]
    simp
    omega

/-! Claim C10. -/

/-- C10: for every byte array `b`, `hexToBytes (bytesToHex b)` returns `b`,
and `bytesToHex b` is a 0x-prefixed lowercase hex string of length
`2·|b| + 2`. -/
theorem C10_hex_roundtrip (bs : List Nat) (h : ∀ b ∈ bs, b < 256) :
    hexToBytes (bytesToHex bs) = bs ∧
    (bytesToHex bs).toList.take 2 = ['0', 'x'] ∧
    (bytesToHex bs).toList.length = 2 * bs.length + 2 ∧
    ∀ c ∈ (bytesToHex bs).toList.drop 2, isLowerHexDigit c := by
  have htl : (bytesToHex bs).toList = '0' :: 'x' :: (bs.map byteHex).flatten := rfl
  refine ⟨?_, by rw [htl]; rfl, ?_, ?_⟩
  · have hstrip : strip0xL ((bytesToHex bs).toList) = (bs.map byteHex).flatten := by
      show strip0xL ('0' :: 'x' :: (bs.map byteHex).flatten) = _
      simp [strip0xL]
    show hexPairsToBytes (strip0xL ((bytesToHex bs).toList)) = bs
    rw [hstrip, flatten_byteHex_parse bs h]
  · rw [htl]
    simp [flatten_byteHex_length bs h]
  · intro c hc
    rw [htl] at hc
    simp only [List.drop_succ_cons, List.drop_zero] at hc
    obtain ⟨l, hl, hcl⟩ := List.mem_flatten.mp hc
    obtain ⟨b, hb, rfl⟩ := List.mem_map.mp hl
    rw [byteHex_of_lt256 b (h b hb)] at hcl
    simp only [List.mem_cons, List.not_mem_nil, or_false] at hcl
    rcases hcl with rfl | rfl
    · exact isLowerHexDigit_hexDigitChar _ (by have := h b hb; omega)
    · exact isLowerHexDigit_hexDigitChar _ (by have := h b hb; omega)

/-- C10 witness: the round trip at the concrete byte array `[0, 255, 18]`. -/
theorem C10_witness :
    (∀ b ∈ [0, 255, 18], b < 256) ∧
    (hexToBytes (bytesToHex [0, 255, 18]) = [0, 255, 18] ∧
     (bytesToHex [0, 255, 18]).toList.take 2 = ['0', 'x'] ∧
     (bytesToHex [0, 255, 18]).toList.length = 2 * [0, 255, 18].length + 2 ∧
     ∀ c ∈ (bytesToHex [0, 255, 18]).toList.drop 2, isLowerHexDigit c) :=
  ⟨by decide, C10_hex_roundtrip [0, 255, 18] (by decide)⟩

/-! Claim C3. -/

/-- C3 counterexample: on `[0x03, 42, 0, 0, 0]` (mode `11`, upper six bits
0) the code reads `4 + 0` further bytes and returns `(42, 5)`, while the
claim's "`n` = remaining 6 bits, value from the following `n` bytes" would
return `(0, 1)`. -/
theorem C3_counterexample :
    readCompactU32 [3, 42, 0, 0, 0] 0 = .ok (42, 5) ∧
    compactClaimC3 [3, 42, 0, 0, 0] 0 = (0, 1) ∧
    ((42, 5) : Nat × Nat) ≠ (0, 1) :=
  ⟨rfl, rfl, by decide⟩

/-- C3 amended: `readCompactU32` selects a mode from the two low bits:
mode 0 returns `byte >> 2` consuming one byte, mode 1 the 2-byte
little-endian value `>> 2`, mode 2 the 4-byte little-endian value `>> 2`,
and mode 3 reads `4 + (byte >> 2)` further little-endian bytes when they
all lie inside the buffer and throws `TypeError` (via `BigInt` of an
out-of-range index) otherwise; the four concrete length examples hold. -/
theorem C3_readCompactU32_modes (buf : List Nat) (off : Nat) :
    (byteAt buf off % 4 = 0 →
      readCompactU32 buf off = .ok (byteAt buf off / 4, off + 1)) ∧
    (byteAt buf off % 4 = 1 →
      readCompactU32 buf off =
        .ok (leVal ((buf.drop off).take 2) / 4, off + 2)) ∧
    (byteAt buf off % 4 = 2 →
      readCompactU32 buf off =
        .ok (leVal ((buf.drop off).take 4) / 4, off + 4)) ∧
    (byteAt buf off % 4 = 3 →
      off + 1 + (4 + byteAt buf off / 4) ≤ buf.length →
      readCompactU32 buf off =
        .ok (leVal ((buf.drop (off + 1)).take (4 + byteAt buf off / 4)),
             off + 1 + (4 + byteAt buf off / 4))) ∧
    (byteAt buf off % 4 = 3 →
      buf.length < off + 1 + (4 + byteAt buf off / 4) →
      readCompactU32 buf off =
        .error "TypeError: Cannot convert undefined to a BigInt") ∧
    readCompactU32 [0] 0 = .ok (0, 1) ∧
    readCompactU32 [252] 0 = .ok (63, 1) ∧
    readCompactU32 [1, 1] 0 = .ok (64, 2) ∧
    readCompactU32 [2, 0, 1, 0] 0 = .ok (16384, 4) := by
  have h2 : leVal ((buf.drop off).take 2) =
      byteAt buf off + 256 * byteAt buf (off + 1) := by
    rw [← lePart_eq_leVal]
    simp [lePart]
  have h4 : leVal ((buf.drop off).take 4) =
      byteAt buf off + 256 * byteAt buf (off + 1) + 65536 * byteAt buf (off + 2)
        + 16777216 * byteAt buf (off + 3) := by
    rw [← lePart_eq_leVal]
    simp [lePart]
    ring
  refine ⟨?_, ?_, ?_, ?_, ?_, rfl, rfl, rfl, rfl⟩
  · intro hm
    simp [readCompactU32, hm]
  · intro hm
    simp [readCompactU32, hm, h2]
  · intro hm
    simp [readCompactU32, hm, h4]
  · intro hm hin
    simp [readCompactU32, hm, hin]
  · intro hm hout
    have hno : ¬ (off + 1 + (4 + byteAt buf off / 4) ≤ buf.length) := by omega
    simp [readCompactU32, hm, hno]

/-- C3 witness: the amended mode characterization applied at the concrete
mode-1 input `[0x01, 0x01]`, and the mode-3 `TypeError` at the one-byte
buffer `[0x03]`. -/
theorem C3_witness :
    byteAt [1, 1] 0 % 4 = 1 ∧
    readCompactU32 [1, 1] 0 = .ok (leVal (([1, 1].drop 0).take 2) / 4, 0 + 2) ∧
    readCompactU32 [3] 0 =
      .error "TypeError: Cannot convert undefined to a BigInt" :=
  ⟨by decide, (C3_readCompactU32_modes [1, 1] 0).2.1 (by decide),
   (C3_readCompactU32_modes [3] 0).2.2.2.2.1 (by decide) (by decide)⟩

/-! Claim C9. -/

/-- C9: `decodeEvent` is a pure function of `(signatureHex, dataHex,
topics)`, so any number of repeated invocations on identical input yield
identical results. -/
theorem C9_decode_deterministic (s d : String) (t : List String) (n : Nat) :
    (List.replicate n (s, d, t)).map (fun p => decodeEvent p.1 p.2.1 p.2.2) =
      List.replicate n (decodeEvent s d t) := by
  simp

/-! Claim C8. -/

/-- C8: a signature whose normalized form (0x stripped, lowercased) is not
in the loaded event table decodes to `null` without error: the generated
`decodeEvent` (whose table keys are already normalized) falls through its
`switch` to `null`, and the runtime `decodeEvent` misses the event cache
(whose keys, built from normalized metadata signatures, are lowercase). -/
theorem C8_unknown_signature_returns_null :
    (∀ (s d : String) (t : List String),
       normalizeSig s ∉ eventSignatures.map Prod.fst →
       decodeEvent s d t = .ok none) ∧
    (∀ (cache : List (String × EventMeta)) (table : List (Nat × TDef))
       (mapping : List (String × String)) (fuel : Nat) (d t0 : String)
       (rest : List String),
       (∀ k ∈ cache.map Prod.fst, asciiLower k = k) →
       normalizeSig t0 ∉ cache.map Prod.fst →
       sqDecodeEvent cache table mapping fuel d (t0 :: rest) = none) := by
  constructor
  · intro s d t hns
    have hk : ∀ k ∈ eventSignatures.map Prod.fst, normalizeSig k = k := by decide
    have hne : ∀ k ∈ eventSignatures.map Prod.fst, s ≠ k := by
      intro k hkm hsk
      exact hns (by rw [hsk, hk k hkm]; exact hkm)
    have h1 := hne "c8a7c5d86cdaf43555273e08a00e4cdaa93cf22046685231d5eb1b6c0d29fa92" (by decide)
    have h2 := hne "bfe3e4de23c556408a7c400baf6b27364bdb763595ac8f3547c20db70131083a" (by decide)
    have h3 := hne "d30c753e3012d98d428abde3eebaae62a09d7d043d8018f1ecb4e6c5d3dc9429" (by decide)
    have h4 := hne "4ee61a2092334a28b8ce7389a8ba2a9c1a9909e0c95b01cbbafb07b7bb576048" (by decide)
    have h5 := hne "9fcfc0869a89de6464b06891fcfa026e1ac809ce01300cd76a342e696297dd20" (by decide)
    have h6 := hne "67cf5731bde3ef79029b3c63ea7a49b0e816d53d665ff88e412b696684ab9c11" (by decide)
    have h7 := hne "cfd8f7cee62376e0a894a1c5d124ec219dc678fd742bcb7f183455a362744aa1" (by decide)
    have h8 := hne "db1dbb06d6c5f62bcd2d0b8e2b251826b43e15a2b17b80080837dc8cd561a283" (by decide)
    simp [decodeEvent, h1, h2, h3, h4, h5, h6, h7, h8]
  · intro cache table mapping fuel d t0 rest hlower hns
    have hlook : alookup (strip0x t0) cache = none := by
      rw [alookup_eq_none]
      intro hmem
      apply hns
      show asciiLower (strip0x t0) ∈ _
      rw [hlower _ hmem]
      exact hmem
    simp [sqDecodeEvent, hlook]

/-- C8 witness: an unknown signature against the generated table, and an
unknown (uppercase) topic-0 signature against a lowercase-keyed cache. -/
theorem C8_witness :
    decodeEvent "deadbeef" "0x" [] = .ok none ∧
    sqDecodeEvent [("aa", { label := "X", args := [], signatureTopic := some "aa" })]
      [] [] 5 "0x" ["0xBB"] = none :=
  ⟨C8_unknown_signature_returns_null.1 "deadbeef" "0x" [] (by decide),
   C8_unknown_signature_returns_null.2
     [("aa", { label := "X", args := [], signatureTopic := some "aa" })]
     [] [] 5 "0x" "0xBB" [] (by decide) (by decide)⟩

/-! Claim C2. -/

/-- C2 counterexample: decoding `ClueGiven` with clue byte 0x05 (unknown
discriminant of the 3-unit variant) yields the string `'Unknown'`, not the
tagged value `{tag:'UnknownVariant', index:5}` the claim requires. -/
theorem C2_counterexample :
    decodeClueGiven clueDataHex ["0x", topicC1] = .ok
      [("game_number", .big 1), ("attempt", .num 1), ("guess", .num 7),
       ("clue", .str "Unknown")] ∧
    Val.str "Unknown" ≠
      Val.obj [("tag", .str "UnknownVariant"), ("index", .num 5)] :=
  ⟨rfl, fun h => Val.noConfusion h⟩

/-- C2 amended: unknown discriminants are non-fatal only in the generated
decoders — an all-unit variant type decodes them to the string `'Unknown'`
(so for {More=0,Less=1,Found=2}, byte 0x02 gives `'Found'` and byte 0x05
gives `'Unknown'`), and a variant type with fielded variants decodes them to
`{tag:'UnknownVariant', index: discriminant}` — while the runtime
interpreter's `decodeVariant` throws `Invalid variant index`. -/
theorem C2_unknown_variant :
    (∀ (names : List String) (buf : List Nat) (off d : Nat),
       buf.get? off = some d → names.length ≤ d →
       genUnitVariantDecode names buf off = (.str "Unknown", off + 1)) ∧
    (clueName [2] 0 = "Found" ∧ clueName [5] 0 = "Unknown") ∧
    (∀ (cases : List (Nat × (List Nat → Nat → Except String (Val × Nat))))
       (buf : List Nat) (off d : Nat),
       buf.get? off = some d → alookup d cases = none →
       genVariantDecode cases buf off =
         .ok (.obj [("tag", .str "UnknownVariant"), ("index", .num d)],
              off + 1)) ∧
    (∀ (vs : List VCase) (buf : List Nat) (off d : Nat),
       buf.get? off = some d → vs.length ≤ d →
       decodeVariantSq vs buf off =
         .error ("Invalid variant index: " ++ toString d)) := by
  refine ⟨?_, ⟨rfl, rfl⟩, ?_, ?_⟩
  · intro names buf off d hget hlen
    have hget' : buf[off]? = some d := by simpa using hget
    have h1 : names[d]? = none := by
      simpa using List.get?_eq_none.mpr hlen
    simp [genUnitVariantDecode, hget', h1]
  · intro cases buf off d hget hlk
    have hget' : buf[off]? = some d := by simpa using hget
    simp [genVariantDecode, hget', hlk]
  · intro vs buf off d hget hlen
    have hget' : buf[off]? = some d := by simpa using hget
    have h1 : vs[d]? = none := by
      simpa using List.get?_eq_none.mpr hlen
    simp [decodeVariantSq, hget', h1]

/-- C2 witness: the three unknown-discriminant behaviours at byte 0x05. -/
theorem C2_witness :
    genUnitVariantDecode ["More", "Less", "Found"] [5] 0 = (.str "Unknown", 1) ∧
    genVariantDecode
      ([] : List (Nat × (List Nat → Nat → Except String (Val × Nat))))
      [5] 0 =
      .ok (.obj [("tag", .str "UnknownVariant"), ("index", .num 5)], 1) ∧
    decodeVariantSq [⟨0, "More"⟩, ⟨1, "Less"⟩, ⟨2, "Found"⟩] [5] 0 =
      .error ("Invalid variant index: " ++ toString 5) :=
  ⟨C2_unknown_variant.1 ["More", "Less", "Found"] [5] 0 5 rfl (by decide),
   C2_unknown_variant.2.2.1 [] [5] 0 5 rfl rfl,
   C2_unknown_variant.2.2.2 [⟨0, "More"⟩, ⟨1, "Less"⟩, ⟨2, "Found"⟩] [5] 0 5
     rfl (by decide)⟩

/-! Claim C1. -/

theorem exceptBind_ok {α β : Type} (a : α) (f : α → Except String β) :
    ((Except.ok a : Except String α) >>= f) = f a := rfl

theorem exceptMap_ok {α β : Type} (f : α → β) (a : α) :
    (f <$> (Except.ok a : Except String α)) = .ok (f a) := rfl

theorem exceptPure {α : Type} (a : α) : (pure a : Except String α) = .ok a :=
  rfl

theorem decodePrimitiveSq_u128 (bytes : List Nat) (off : Nat)
    (h : off + 16 ≤ bytes.length) :
    decodePrimitiveSq bytes off "u128" =
      .ok (.big (lePart bytes off 16), off + 16) := by
  simp [decodePrimitiveSq, readBig, h]

theorem decodePrimitiveSq_u16 (bytes : List Nat) (off : Nat) :
    decodePrimitiveSq bytes off "u16" =
      .ok (.num (sqReadU16 bytes off), off + 2) := rfl

theorem decodeValue_tU128 (table : List (Nat × TDef)) (fuel : Nat)
    (bytes : List Nat) (off : Nat) (h : off + 16 ≤ bytes.length) :
    decodeValue table (fuel + 1) tU128 bytes off =
      .ok (.big (lePart bytes off 16), off + 16) := by
  show decodePrimitiveSq bytes off "u128" = _
  exact decodePrimitiveSq_u128 bytes off h

theorem decodeValue_tU16 (table : List (Nat × TDef)) (fuel : Nat)
    (bytes : List Nat) (off : Nat) :
    decodeValue table (fuel + 1) tU16 bytes off =
      .ok (.num (sqReadU16 bytes off), off + 2) := rfl

theorem sqReadU16_val (buf : List Nat) (off : Nat) :
    sqReadU16 buf off = leVal ((buf.drop off).take 2) := by
  have h := lePart_eq_leVal buf 2 off
  simp [lePart] at h
  simp [sqReadU16]
  omega

/-- C1 counterexample: for the event shape {indexed u128, non-indexed u16},
`decodeEventData` decodes `min_number` as 1 — the u16 at data offset 16,
after skipping the indexed argument's 16 bytes — although the u16 at data
offset 0 is 7; the claim requires the first non-indexed argument to be
decoded starting at data offset 0. -/
theorem C1_counterexample :
    decodeEventData tableC1 2 dataC1 argsC1 ["0x", topicC1] = .ok
      [("game_number", .big 1), ("min_number", .num 1)] ∧
    leVal (dataC1.take 2) = 7 ∧ Val.num 1 ≠ Val.num 7 :=
  ⟨rfl, rfl, by simp⟩

/-- C1 amended: the generated decoders follow the topics-only-consumption
policy — `decodeNewGame` reads both indexed args from topics and its first
non-indexed arg at data offset 0 — whereas `decodeEventData` in the runtime
decoder first advances the data offset past every indexed argument's
encoding, so its first non-indexed argument is decoded at the summed size of
the indexed arguments (16 for one indexed u128), not at 0. -/
theorem C1_data_cursor :
    (∀ (t0 t1 t2 dataHex : String) (data tb1 tb2 : List Nat),
       hexToBytes dataHex = data →
       hexToBytes t1 = tb1 →
       hexToBytes t2 = tb2 →
       32 ≤ tb1.length → 32 ≤ tb2.length → 2 ≤ data.length →
       decodeNewGame dataHex [t0, t1, t2] = .ok
         [("game_number", .big (leVal (tb1.take 16))),
          ("player", .str (bytesToHex (tb2.drop (tb2.length - 20)))),
          ("min_number", .num (leVal (data.take 2))),
          ("max_number", .num (leVal ((data.drop 2).take 2)))]) ∧
    (∀ (fuel : Nat) (data tb : List Nat) (t0 t1 : String),
       hexToBytes t1 = tb → 16 ≤ tb.length → 16 ≤ data.length →
       decodeEventData tableC1 (fuel + 1) data argsC1 [t0, t1] = .ok
         [("game_number", .big (leVal (tb.take 16))),
          ("min_number", .num (leVal ((data.drop 16).take 2)))]) := by
  constructor
  · intro t0 t1 t2 dataHex data tb1 tb2 hd ht1 ht2 h32a h32b hdl
    have h16a : (16:Nat) ≤ tb1.length := by omega
    have hv1 : lePart tb1 0 16 = leVal (tb1.take 16) := by
      rw [lePart_eq_leVal]
      simp
    have hmin : (readU16 data 0).1 = leVal (data.take 2) := by
      rw [readU16_val]
      simp
    have hmax : (readU16 data 2).1 = leVal ((data.drop 2).take 2) :=
      readU16_val data 2
    have hoff : (readU16 data 0).2 = 2 := rfl
    have hgd1 : ([t0, t1, t2].getD 1 "") = t1 := rfl
    have hgd2 : ([t0, t1, t2].getD 2 "") = t2 := rfl
    simp [decodeNewGame, hgd1, hgd2, hd, ht1, ht2, h32a, h32b, hdl, readBig,
      h16a, hv1, hmin, hmax, hoff, mapSet, alookup, exceptBind_ok,
      exceptMap_ok, exceptPure]
  · intro fuel data tb t0 t1 ht h16t h16d
    have e1 : decodeValue tableC1 (fuel + 1) tU128 tb 0 =
        .ok (.big (lePart tb 0 16), 16) := by
      have h := decodeValue_tU128 tableC1 fuel tb 0 (by omega)
      simpa using h
    have e2 : decodeValue tableC1 (fuel + 1) tU128 data 0 =
        .ok (.big (lePart data 0 16), 16) := by
      have h := decodeValue_tU128 tableC1 fuel data 0 (by omega)
      simpa using h
    have e3 : decodeValue tableC1 (fuel + 1) tU16 data 16 =
        .ok (.num (sqReadU16 data 16), 18) :=
      decodeValue_tU16 tableC1 fuel data 16
    have l1 : alookup 1 tableC1 = some tU128 := rfl
    have l2 : alookup 2 tableC1 = some tU16 := rfl
    have hvt : lePart tb 0 16 = leVal (tb.take 16) := by
      rw [lePart_eq_leVal]
      simp
    have hvd : sqReadU16 data 16 = leVal ((data.drop 16).take 2) :=
      sqReadU16_val data 16
    have hgd1 : ([t0, t1].getD 1 "") = t1 := rfl
    have m1 : ∀ v : Val, mapSet [] "game_number" v = [("game_number", v)] :=
      fun _ => rfl
    have m2 : ∀ v w : Val, mapSet [("game_number", v)] "min_number" w =
        [("game_number", v), ("min_number", w)] := fun _ _ => rfl
    simp [decodeEventData, argsC1, l1, l2, e1, e2, e3, ht, hvt, hvd, hgd1,
      m1, m2, exceptBind_ok, exceptMap_ok, exceptPure]

/-- C1 witness: the spec's end-to-end `NewGame` example for the generated
decoder, and the skip behaviour of `decodeEventData` at a concrete buffer. -/
theorem C1_witness :
    decodeNewGame "0x01006400" ["0x", topicC1, tH160] = .ok
      [("game_number", .big 1),
       ("player", .str "0xe75cbd47620dbb2053cf2a98d06840f06baaf141"),
       ("min_number", .num 1), ("max_number", .num 100)] ∧
    decodeEventData tableC1 1 (List.replicate 16 0 ++ [9, 0]) argsC1
      ["0x", topicC1] = .ok
      [("game_number", .big 1), ("min_number", .num 9)] := by
  constructor
  · have h := C1_data_cursor.1 "0x" topicC1 tH160 "0x01006400"
      (hexToBytes "0x01006400") (hexToBytes topicC1) (hexToBytes tH160)
      rfl rfl rfl (by decide) (by decide) (by decide)
    exact h.trans (by rfl)
  · have h := C1_data_cursor.2 0 (List.replicate 16 0 ++ [9, 0])
      (hexToBytes topicC1) "0x" topicC1
      rfl (by decide) (by decide)
    exact h.trans (by rfl)

/-! Claim C5. -/

/-- C5: the generated indexed-argument decode reads `u128`/`u32`/`u16`
little-endian from topic offset 0, hex-encodes the last 20 bytes for the
H160 path, and stores the raw topic hex for any other (or unknown) indexed
type, without error. -/
theorem C5_indexed_topic_decode (t : String) (tb : List Nat)
    (ht : hexToBytes t = tb) (h32 : 32 ≤ tb.length) :
    genIndexedDecode (some { primitive := some "u128" }) t =
      .ok (.big (leVal (tb.take 16))) ∧
    genIndexedDecode (some { primitive := some "u32" }) t =
      .ok (.num (leVal (tb.take 4))) ∧
    genIndexedDecode (some { primitive := some "u16" }) t =
      .ok (.num (leVal (tb.take 2))) ∧
    genIndexedDecode (some { path := some ["primitive_types", "H160"] }) t =
      .ok (.str (bytesToHex (tb.drop (tb.length - 20)))) ∧
    (∀ d : GDef, d.primitive ≠ some "u128" → d.primitive ≠ some "u32" →
       d.primitive ≠ some "u16" →
       (d.path.map (String.intercalate "." ·)) ≠ some "primitive_types.H160" →
       genIndexedDecode (some d) t = .ok (.str t)) ∧
    genIndexedDecode none t = .ok (.str t) := by
  have h16 : (0:Nat) + 16 ≤ tb.length := by omega
  have hv16 : lePart tb 0 16 = leVal (tb.take 16) := by
    rw [lePart_eq_leVal]
    simp
  have hv4 : (readU32 tb 0).1 = leVal (tb.take 4) := by
    rw [readU32_val]
    simp
  have hv2 : (readU16 tb 0).1 = leVal (tb.take 2) := by
    rw [readU16_val]
    simp
  refine ⟨?_, ?_, ?_, ?_, ?_, ?_⟩
  · simp [genIndexedDecode, ht, h32, readBig, h16, hv16, exceptBind_ok,
      exceptMap_ok, exceptPure]
  · simp [genIndexedDecode, ht, h32, hv4, exceptBind_ok, exceptMap_ok,
      exceptPure]
  · simp [genIndexedDecode, ht, h32, hv2, exceptBind_ok, exceptMap_ok,
      exceptPure]
  · have hp : String.intercalate "." ["primitive_types", "H160"] =
        "primitive_types.H160" := rfl
    simp [genIndexedDecode, ht, h32, hp, exceptBind_ok, exceptMap_ok,
      exceptPure]
  · intro d hd1 hd2 hd3 hd4
    simp [genIndexedDecode, ht, h32, hd1, hd2, hd3, hd4, exceptBind_ok,
      exceptMap_ok, exceptPure]
  · simp [genIndexedDecode, ht, h32, exceptBind_ok, exceptMap_ok, exceptPure]

/-- C5 witness: the spec's H160 example topic decodes to the right-aligned
20-byte address, and an indexed u128 topic with value 1 decodes to 1. -/
theorem C5_witness :
    genIndexedDecode (some { path := some ["primitive_types", "H160"] })
      tH160 = .ok (.str "0xe75cbd47620dbb2053cf2a98d06840f06baaf141") ∧
    genIndexedDecode (some { primitive := some "u128" }) topicC1 =
      .ok (.big 1) := by
  constructor
  · have h := (C5_indexed_topic_decode tH160
      (hexToBytes tH160) rfl (by decide)).2.2.2.1
    exact h.trans (by rfl)
  · have h := (C5_indexed_topic_decode topicC1
      (hexToBytes topicC1) rfl (by decide)).1
    exact h.trans (by rfl)

/-! Claim C6. -/

theorem exceptBind_error {α β : Type} (e : String) (f : α → Except String β) :
    ((Except.error e : Except String α) >>= f) = .error e := rfl

theorem exceptMap_error {α β : Type} (f : α → β) (e : String) :
    (f <$> (Except.error e : Except String α)) = .error e := rfl

theorem exceptMapFn_ok {α β : Type} (f : α → β) (a : α) :
    Except.map f (.ok a : Except String α) = .ok (f a) := rfl

theorem exceptMapFn_error {α β : Type} (f : α → β) (e : String) :
    Except.map f (.error e : Except String α) = .error e := rfl

theorem genVecLoop_eq_decodeN
    (elemDecode : List Nat → Nat → Except String (Val × Nat))
    (buf : List Nat) :
    ∀ (n : Nat) (acc : List Val) (off : Nat),
      genVecLoop elemDecode buf n acc off =
        (decodeN elemDecode buf n off).map (fun r => (acc ++ r.1, r.2)) := by
  intro n
  induction n with
  | zero =>
    intro acc off
    simp [genVecLoop, decodeN, exceptMapFn_ok]
  | succ m ih =>
    intro acc off
    rcases h : elemDecode buf off with e | ⟨v, no⟩
    · simp [genVecLoop, decodeN, h, exceptBind_error, exceptMapFn_error,
        exceptMap_error]
    · rcases h2 : decodeN elemDecode buf m no with e2 | ⟨vs, o2⟩
      · simp [genVecLoop, decodeN, h, h2, ih, exceptBind_ok, exceptBind_error,
          exceptMapFn_error, exceptMap_error]
      · simp [genVecLoop, decodeN, h, h2, ih, exceptBind_ok, exceptMapFn_ok,
          exceptMap_ok, exceptPure]

/-- C6: the sequence decode emitted by the generator reads a SCALE compact
length; a `TypeError` thrown inside that read (short mode-3 window)
propagates out of both templates; when the read yields `n` and the element
type resolves to `u8` (type id 5 in this contract's metadata) the value is
the raw `n`-byte slice right after the length with the new offset at the
slice end, otherwise exactly `n` elements of `T` are decoded sequentially. -/
theorem C6_vec_decode (resolves : Nat → Option String) (elemId : Nat)
    (elemDecode : List Nat → Nat → Except String (Val × Nat))
    (buf : List Nat) (off : Nat)
    (hiff : (resolves elemId = some "u8") ↔ elemId = 5) :
    (∀ msg, readCompactU32 buf off = .error msg →
      genSeqDecode elemId elemDecode buf off = .error msg) ∧
    (resolves elemId = some "u8" →
      ∀ n o, readCompactU32 buf off = .ok (n, o) →
      genSeqDecode elemId elemDecode buf off =
        .ok (.bytes ((buf.drop o).take n), o + n)) ∧
    (resolves elemId ≠ some "u8" →
      ∀ n o, readCompactU32 buf off = .ok (n, o) →
      genSeqDecode elemId elemDecode buf off =
        (decodeN elemDecode buf n o).map (fun r => (.list r.1, r.2))) := by
  refine ⟨?_, ?_, ?_⟩
  · intro msg hmsg
    by_cases h5 : elemId = 5
    · simp [genSeqDecode, h5, genVecU8Decode, hmsg, exceptBind_error]
    · simp [genSeqDecode, h5, genVecDecode, hmsg, exceptBind_error]
  · intro h8 n o hok
    have h5 : elemId = 5 := hiff.mp h8
    subst h5
    simp [genSeqDecode, genVecU8Decode, hok, exceptBind_ok, exceptPure]
  · intro h8 n o hok
    have h5 : elemId ≠ 5 := fun h => h8 (hiff.mpr h)
    simp only [genSeqDecode, if_neg h5, genVecDecode, hok, exceptBind_ok]
    rw [genVecLoop_eq_decodeN]
    rcases hd : decodeN elemDecode buf n o with e | ⟨vs, o2⟩
    · simp [hd, exceptBind_error, exceptMapFn_error]
    · simp [hd, exceptBind_ok, exceptMapFn_ok, exceptPure]

/-- C6 witness: with the metadata's id-5-is-u8 table, `Vec<u8>` yields the
raw slice, a non-u8 element id takes the per-element path, and the
compact-length `TypeError` on the short buffer `[0x03]` propagates. -/
theorem C6_witness :
    (resolvesGuess 5 = some "u8" ↔ (5:Nat) = 5) ∧
    genSeqDecode 5 (fun _ _ => .error "") [8, 9, 9] 0 =
      .ok (.bytes [9, 9], 3) ∧
    genSeqDecode 7 (fun _ o => .ok (.num 0, o + 1)) [4, 99] 0 =
      .ok (.list [.num 0], 2) ∧
    genSeqDecode 5 (fun _ _ => .error "") [3] 0 =
      .error "TypeError: Cannot convert undefined to a BigInt" := by
  refine ⟨by decide, ?_, ?_, ?_⟩
  · have h := (C6_vec_decode resolvesGuess 5 (fun _ _ => .error "")
      [8, 9, 9] 0 (by decide)).2.1 (by decide) 2 1 rfl
    exact h.trans (by rfl)
  · have h := (C6_vec_decode resolvesGuess 7 (fun _ o => .ok (.num 0, o + 1))
      [4, 99] 0 (by decide)).2.2 (by decide) 1 1 rfl
    exact h.trans (by rfl)
  · exact (C6_vec_decode resolvesGuess 5 (fun _ _ => .error "")
      [3] 0 (by decide)).1 "TypeError: Cannot convert undefined to a BigInt" rfl

/-! Claim C7. -/

/-- C7 counterexample: on a document with `version: 5` (and well-formed
lists) the generator's validator rejects, but the runtime loader succeeds
and builds the event/type tables — so "loading fails with InvalidMetadata
if version ≠ 6" is false of the runtime loading path. -/
theorem C7_counterexample :
    docV5.version ≠ some 6 ∧
    validateMetadata (some docV5) = .error "Unsupported Ink! version" ∧
    sqLoadMetadata docV5 = .ok
      ([("abc",
         { label := "NewGame", args := [], signatureTopic := some "0xabc" })],
       []) :=
  ⟨by decide, rfl, rfl⟩

theorem sigTruthy_iff (o : Option String) :
    sigTruthy o = true ↔ ∃ s, o = some s ∧ s ≠ "" := by
  cases o <;> simp [sigTruthy]

theorem loadEventStep_fold_ok :
    ∀ (evs : List EventMeta) (acc : List (String × EventMeta)),
      (∀ e ∈ evs, e.signatureTopic ≠ none) →
      evs.foldlM loadEventStep acc =
        .ok (evs.foldl
          (fun acc e => mapSet acc (strip0x (e.signatureTopic.getD "")) e)
          acc) := by
  intro evs
  induction evs with
  | nil =>
    intro acc _
    rfl
  | cons e rest ih =>
    intro acc hall
    rcases hs : e.signatureTopic with _ | s
    · exact absurd hs (hall e (by simp))
    · rw [List.foldlM_cons]
      simp only [loadEventStep, hs, exceptBind_ok, List.foldl_cons,
        Option.getD_some]
      exact ih _ (fun x hx => hall x (by simp [hx]))

theorem loadEventStep_fold_error :
    ∀ (evs : List EventMeta) (acc : List (String × EventMeta)),
      (∃ e ∈ evs, e.signatureTopic = none) →
      evs.foldlM loadEventStep acc = .error "Failed to load metadata" := by
  intro evs
  induction evs with
  | nil =>
    rintro acc ⟨e, he, _⟩
    simp at he
  | cons x rest ih =>
    rintro acc ⟨e, he, hnone⟩
    rcases List.mem_cons.mp he with rfl | hin
    · rw [List.foldlM_cons]
      simp [loadEventStep, hnone, exceptBind_error]
    · rcases hx : x.signatureTopic with _ | s
      · rw [List.foldlM_cons]
        simp [loadEventStep, hx, exceptBind_error]
      · rw [List.foldlM_cons]
        simp only [loadEventStep, hx, exceptBind_ok]
        exact ih _ ⟨e, hin, hnone⟩

/-- C7 amended: the generator's `validateMetadata` succeeds exactly when the
version is 6, `spec.events` and `types` are actual lists, and some event has
a truthy `signature_topic`; the runtime `loadMetadata` performs none of
these checks — whenever the present events each carry a `signature_topic`
string it builds the signature-keyed event cache and id-keyed type cache
regardless of version, and it fails (only) when an event record lacks its
`signature_topic`, where `undefined.startsWith` throws. -/
theorem C7_metadata_validation :
    (∀ doc : Option MetaDoc,
       validateMetadata doc = .ok () ↔
         ∃ m, doc = some m ∧ m.version = some 6 ∧
           ∃ sp evs, m.spec = some sp ∧ sp.events = .list evs ∧
             (∃ ts, m.types = .list ts) ∧
             ∃ e ∈ evs, ∃ s, e.signatureTopic = some s ∧ s ≠ "") ∧
    (∀ (m : MetaDoc) (sp : SpecSection) (evs : List EventMeta)
       (ts : List TypeEntry),
       m.spec = some sp → sp.events = .list evs → m.types = .list ts →
       (∀ e ∈ evs, e.signatureTopic ≠ none) →
       sqLoadMetadata m = .ok
         (evs.foldl
           (fun acc e => mapSet acc (strip0x (e.signatureTopic.getD "")) e) [],
          ts.foldl (fun acc t => mapSet acc t.id t.tdef) [])) ∧
    (∀ (m : MetaDoc) (sp : SpecSection) (evs : List EventMeta),
       m.spec = some sp → sp.events = .list evs →
       (∃ e ∈ evs, e.signatureTopic = none) →
       sqLoadMetadata m = .error "Failed to load metadata") := by
  refine ⟨?_, ?_, ?_⟩
  · intro doc
    rcases doc with _ | m
    · simp [validateMetadata]
    · constructor
      · intro hok
        by_cases hv : m.version = some 6
        · rcases hs : m.spec with _ | sp
          · simp [validateMetadata, hv, hs] at hok
          · rcases he : sp.events with _ | _ | evs
            · simp [validateMetadata, hv, hs, he] at hok
            · simp [validateMetadata, hv, hs, he] at hok
            · rcases htp : m.types with _ | _ | ts
              · simp [validateMetadata, hv, hs, he, htp] at hok
              · simp [validateMetadata, hv, hs, he, htp] at hok
              · by_cases ha : evs.any (fun e => sigTruthy e.signatureTopic) = true
                · refine ⟨m, rfl, hv, sp, evs, hs, he, ⟨ts, htp⟩, ?_⟩
                  simpa [List.any_eq_true, sigTruthy_iff] using ha
                · simp [validateMetadata, hv, hs, he, htp, ha] at hok
        · simp [validateMetadata, hv] at hok
      · rintro ⟨m', hm, hv, sp, evs, hs, he, ⟨ts, htp⟩, e, hein, s, hes, hsig⟩
        cases hm
        have ha : evs.any (fun e => sigTruthy e.signatureTopic) = true :=
          List.any_eq_true.mpr ⟨e, hein, (sigTruthy_iff _).mpr ⟨s, hes, hsig⟩⟩
        simp [validateMetadata, hv, hs, he, htp, ha]
  · intro m sp evs ts hsp hev hty hsig
    simp [sqLoadMetadata, hsp, hev, hty, loadEventStep_fold_ok evs [] hsig,
      exceptBind_ok, exceptPure]
  · intro m sp evs hsp hev hex
    simp [sqLoadMetadata, hsp, hev, loadEventStep_fold_error evs [] hex,
      exceptBind_ok, exceptBind_error, exceptPure]

/-- C7 witness: the validator accepts the version-6 document, the runtime
loader builds that document's tables, and a document whose only event lacks
`signature_topic` makes the runtime load fail. -/
theorem C7_witness :
    validateMetadata (some docV6) = .ok () ∧
    sqLoadMetadata docV6 = .ok
      ([("abc",
         { label := "NewGame", args := [], signatureTopic := some "0xabc" })],
       []) ∧
    sqLoadMetadata
      { version := some 6,
        spec := some ⟨.list [{ label := "X", args := [], signatureTopic := none }]⟩,
        types := .list [] } = .error "Failed to load metadata" := by
  refine ⟨?_, ?_, ?_⟩
  · exact (C7_metadata_validation.1 (some docV6)).mpr
      ⟨docV6, rfl, rfl,
       ⟨.list [{ label := "NewGame", args := [], signatureTopic := some "0xabc" }]⟩,
       [{ label := "NewGame", args := [], signatureTopic := some "0xabc" }],
       rfl, rfl, ⟨[], rfl⟩,
       ⟨{ label := "NewGame", args := [], signatureTopic := some "0xabc" },
        by simp, "0xabc", rfl, by decide⟩⟩
  · exact (C7_metadata_validation.2.1 docV6
      ⟨.list [{ label := "NewGame", args := [], signatureTopic := some "0xabc" }]⟩
      [{ label := "NewGame", args := [], signatureTopic := some "0xabc" }]
      [] rfl rfl rfl (by decide)).trans (by rfl)
  · exact C7_metadata_validation.2.2
      { version := some 6,
        spec := some ⟨.list [{ label := "X", args := [], signatureTopic := none }]⟩,
        types := .list [] }
      ⟨.list [{ label := "X", args := [], signatureTopic := none }]⟩
      [{ label := "X", args := [], signatureTopic := none }]
      rfl rfl
      ⟨{ label := "X", args := [], signatureTopic := none }, by simp, rfl⟩

/-! Claim C4. -/

theorem sortByFromDesc_head :
    ∀ (l : List VersionEntry), l ≠ [] →
      ∃ e rest, sortByFromDesc l = e :: rest ∧ e ∈ l ∧
        ∀ x ∈ l, fromKey x ≤ fromKey e := by
  intro l
  induction l with
  | nil => intro hne; exact absurd rfl hne
  | cons x xs ih =>
    intro _
    cases xs with
    | nil =>
      exact ⟨x, [], rfl, by simp, by simp⟩
    | cons a as =>
      obtain ⟨e, rest, heq, hmem, hmax⟩ := ih (by simp)
      have hsort : sortByFromDesc (x :: a :: as) =
          insertDesc x (sortByFromDesc (a :: as)) := rfl
      rw [hsort, heq]
      by_cases hlt : fromKey x < fromKey e
      · refine ⟨e, insertDesc x rest, by simp [insertDesc, hlt],
          List.mem_cons_of_mem _ hmem, ?_⟩
        intro y hy
        rcases List.mem_cons.mp hy with rfl | hy2
        · omega
        · exact hmax y hy2
      · refine ⟨x, e :: rest, by simp [insertDesc, hlt], by simp, ?_⟩
        intro y hy
        rcases List.mem_cons.mp hy with rfl | hy2
        · exact Nat.le_refl _
        · have := hmax y hy2
          omega

theorem resolveDecoder_eq (registry : List VersionEntry) (a : String)
    (h : Nat) :
    resolveDecoder registry a h =
      match (sortByFromDesc
          (if 0 < ((registry.filter (addrMatch a)).filter
              (rangeMatch h)).length
           then (registry.filter (addrMatch a)).filter (rangeMatch h)
           else registry.filter (addrMatch a))).head? with
      | none => .error ("No decoder version found for address " ++ a)
      | some e => .ok e := rfl

/-- C4 amended: `resolveDecoder` keeps entries whose address list is absent
or empty (wildcard) or contains the address exactly as given — there is no
lowercase normalization; among those it keeps entries whose range contains
the height, where `from` absent or 0 and `to` absent, null or 0 are open
bounds; if that range-filtered subset is empty it falls back to the
address-filtered subset; it picks an entry with the greatest `from` (absent
as 0); and it fails exactly when the address-filtered subset is empty. -/
theorem C4_resolve_characterization (registry : List VersionEntry)
    (a : String) (h : Nat) :
    (∀ e : VersionEntry, addrMatch a e = true ↔
       (e.addresses.getD [] = [] ∨ a ∈ e.addresses.getD [])) ∧
    (∀ e : VersionEntry, rangeMatch h e = true ↔
       ((e.fromB.getD 0 = 0 ∨ e.fromB.getD 0 ≤ h) ∧
        (e.toB.getD 0 = 0 ∨ h < e.toB.getD 0))) ∧
    ((∃ msg, resolveDecoder registry a h = .error msg) ↔
       registry.filter (addrMatch a) = []) ∧
    (∀ e, resolveDecoder registry a h = .ok e →
       e ∈ registry ∧ addrMatch a e = true ∧
       ((registry.filter (addrMatch a)).filter (rangeMatch h) ≠ [] →
          e ∈ (registry.filter (addrMatch a)).filter (rangeMatch h) ∧
          ∀ x ∈ (registry.filter (addrMatch a)).filter (rangeMatch h),
            fromKey x ≤ fromKey e) ∧
       ((registry.filter (addrMatch a)).filter (rangeMatch h) = [] →
          e ∈ registry.filter (addrMatch a) ∧
          ∀ x ∈ registry.filter (addrMatch a), fromKey x ≤ fromKey e)) := by
  refine ⟨?_, ?_, ?_, ?_⟩
  · intro e
    rcases hadr : e.addresses with _ | l
    · simp [addrMatch, hadr]
    · rcases l with _ | ⟨a0, as⟩
      · simp [addrMatch, hadr]
      · simp [addrMatch, hadr, List.contains, List.elem_iff]
  · intro e
    rcases hf : e.fromB with _ | f <;> rcases ht : e.toB with _ | t <;>
      simp [rangeMatch, hf, ht]
  · constructor
    · rintro ⟨msg, hmsg⟩
      by_contra ham
      have hcand : (if 0 < ((registry.filter (addrMatch a)).filter
            (rangeMatch h)).length
          then (registry.filter (addrMatch a)).filter (rangeMatch h)
          else registry.filter (addrMatch a)) ≠ [] := by
        by_cases hrm : 0 < ((registry.filter (addrMatch a)).filter
            (rangeMatch h)).length
        · rw [if_pos hrm]
          exact List.ne_nil_of_length_pos hrm
        · rw [if_neg hrm]
          exact ham
      obtain ⟨e, rest, hsort, _, _⟩ := sortByFromDesc_head _ hcand
      rw [resolveDecoder_eq, hsort] at hmsg
      simp at hmsg
    · intro ham
      have hrm : (registry.filter (addrMatch a)).filter (rangeMatch h) = [] := by
        rw [ham]
        rfl
      exact ⟨"No decoder version found for address " ++ a,
        by rw [resolveDecoder_eq, hrm, ham]; rfl⟩
  · intro e he
    rw [resolveDecoder_eq] at he
    by_cases hrm : 0 < ((registry.filter (addrMatch a)).filter
        (rangeMatch h)).length
    · rw [if_pos hrm] at he
      have hne : (registry.filter (addrMatch a)).filter (rangeMatch h) ≠ [] :=
        List.ne_nil_of_length_pos hrm
      obtain ⟨e0, rest, hsort, hmem, hmax⟩ := sortByFromDesc_head _ hne
      rw [hsort] at he
      simp only [List.head?] at he
      injection he with he'
      subst he'
      have hmem2 := List.mem_filter.mp hmem
      have hmem3 := List.mem_filter.mp hmem2.1
      exact ⟨hmem3.1, hmem3.2, fun _ => ⟨hmem, hmax⟩,
        fun hnil => absurd hnil hne⟩
    · rw [if_neg hrm] at he
      have hrmnil : (registry.filter (addrMatch a)).filter (rangeMatch h) = [] :=
        List.length_eq_zero.mp (by omega)
      by_cases ham : registry.filter (addrMatch a) = []
      · rw [ham] at he
        simp [sortByFromDesc] at he
      · obtain ⟨e0, rest, hsort, hmem, hmax⟩ := sortByFromDesc_head _ ham
        rw [hsort] at he
        simp only [List.head?] at he
        injection he with he'
        subst he'
        have hmem3 := List.mem_filter.mp hmem
        exact ⟨hmem3.1, hmem3.2, fun hcontra => absurd hrmnil hcontra,
          fun _ => ⟨hmem, hmax⟩⟩

/-- C4 counterexample: with the uppercase-hex form of the registry address,
the lowercase-normalized address is in the entry's list and the height is in
range, yet `resolveDecoder` throws `No decoder version found` — there is no
lowercase normalization in the address filter, so the claim's
"fails exactly when the (normalized-)address-filtered subset is empty" is
false. -/
theorem C4_counterexample :
    (∃ e ∈ registry0, asciiLower upperAddr ∈ e.addresses.getD [] ∧
       rangeMatch 2000000 e = true) ∧
    resolveDecoder registry0 upperAddr 2000000 =
      .error ("No decoder version found for address " ++ upperAddr) :=
  ⟨by decide, rfl⟩

/-- C4 witness: the characterization applied to the generated registry at
height 1934743 (below `from`): the range filter is empty, the address-only
fallback applies, and resolution returns the single v0.1.0 entry. -/
theorem C4_witness :
    registry0.filter
      (addrMatch "0xe75cbd47620dbb2053cf2a98d06840f06baaf141") ≠ [] ∧
    resolveDecoder registry0 "0xe75cbd47620dbb2053cf2a98d06840f06baaf141"
      1934743 = .ok entry0 := by
  have hc := C4_resolve_characterization registry0
    "0xe75cbd47620dbb2053cf2a98d06840f06baaf141" 1934743
  refine ⟨by decide, ?_⟩
  rcases hres : resolveDecoder registry0
      "0xe75cbd47620dbb2053cf2a98d06840f06baaf141" 1934743 with msg | e
  · exact absurd (hc.2.2.1.mp ⟨msg, hres⟩) (by decide)
  · have h4 := hc.2.2.2 e hres
    have hmem : e ∈ registry0 := h4.1
    have he : e = entry0 := by simpa [registry0] using hmem
    rw [he]

end SquidGuess
